import Mathlib

/-!
# Verification of the chart-statistics resolver

Shallow embedding of the reference-collection / name-resolution / ranking
algorithm of `src/components/dialogs/ChartStatsDialog.tsx` (the `useEffect`
body, steps 2–5), together with proofs of its specified properties.

Modelling conventions:
* TypeScript optional string fields checked for truthiness are `Option String`
  (`none` = absent; `some ""` is falsy in JS, handled explicitly).
* JavaScript `Set<string>` insertion is a first-occurrence-preserving
  deduplicating append (`Array.from` returns insertion order).
* The `Map<string, …>` built from the catalog is modelled as its lookup
  function (only `set` and `get` are used by the code; `set` overwrites).
* A usage-table entry is an arbitrary parsed JSON value, used by the code
  only through the JS `Number(·)` coercion; we model a stored value by the
  outcome of that coercion: a finite number (`coercesTo n`, counts taken as
  integers) or NaN (`nanVal`, e.g. a non-numeric string).  A missing key
  gives `Number(undefined) = NaN`.  `Number(x) || 0` maps NaN and 0 to 0 and
  keeps every other number, negative ones included.
* `Array.prototype.sort` with comparator `(a, b) => b.count - a.count` is a
  stable descending-by-count sort (stability is guaranteed by ES2019); it is
  modelled by `List.insertionSort` with the relation `b.count ≤ a.count`,
  which is exactly the stable sort placing earlier elements first on ties.
-/

/-- A link button carried by a chart button: `{ enabled, targetRangeId }`. -/
structure LinkButton where
  enabled : Bool
  targetRangeId : Option String
deriving DecidableEq

/-- A chart button.  `type` is the discriminant string (`"normal"` among
others), `linkedItem` the optional direct range reference, `linkButtons` the
optional list of link buttons. -/
structure ChartButton where
  type : String
  linkedItem : Option String
  linkButtons : Option (List LinkButton)
deriving DecidableEq

/-- The chart under analysis (`StoredChart`): a name and its buttons. -/
structure StoredChart where
  name : String
  buttons : List ChartButton
deriving DecidableEq

/-- A catalog range: `{ id, name }`. -/
structure Range where
  id : String
  name : String
deriving DecidableEq

/-- A catalog folder: `{ id, name, ranges }`. -/
structure Folder where
  id : String
  name : String
  ranges : List Range
deriving DecidableEq

/-- The value stored in the details map: `{ folderName, rangeName }`. -/
abbrev RangeDetails := String × String

/-- The empty lookup, `new Map()`. -/
def emptyDetails : String → Option RangeDetails := fun _ => none

/-- Pointwise overwrite of the lookup function, `map.set(k, v)`. -/
def detailsSet (m : String → Option RangeDetails) (k : String) (v : RangeDetails) :
    String → Option RangeDetails :=
  fun k' => if k' = k then some v else m k'

/-- Step 2 of the code: build `rangeDetailsMap` by a nested `forEach` over
every folder and every range inside it, `set`ting
`range.id ↦ (folder.name, range.name)`. -/
def rangeDetailsMap (folders : List Folder) : String → Option RangeDetails :=
  folders.foldl
    (fun m folder =>
      folder.ranges.foldl (fun m range => detailsSet m range.id (folder.name, range.name)) m)
    emptyDetails

/-- The references contributed by a button's `linkedItem`
(line 71: `button.type === 'normal' && button.linkedItem &&
button.linkedItem !== 'label-only' && button.linkedItem !== 'exit'`). -/
def linkedItemRefs (b : ChartButton) : List String :=
  match b.linkedItem with
  | some s =>
      if b.type = "normal" ∧ s ≠ "" ∧ s ≠ "label-only" ∧ s ≠ "exit" then [s] else []
  | none => []

/-- The reference contributed by a single link button
(line 76: `linkBtn.enabled && linkBtn.targetRangeId`). -/
def linkButtonRefs (lb : LinkButton) : List String :=
  match lb.targetRangeId with
  | some s => if lb.enabled = true ∧ s ≠ "" then [s] else []
  | none => []

/-- The references contributed by a button's `linkButtons` loop
(lines 74–80; `if (button.linkButtons)` — note an empty array is truthy in
JS and contributes nothing, which coincides with iterating it). -/
def buttonLinkRefs (b : ChartButton) : List String :=
  match b.linkButtons with
  | some lbs => lbs.flatMap linkButtonRefs
  | none => []

/-- All references a button pushes into the set, in the code's order:
first the `linkedItem` check, then the `linkButtons` loop. -/
def buttonRefs (b : ChartButton) : List String :=
  linkedItemRefs b ++ buttonLinkRefs b

/-- Insertion into the `Set` as seen through `Array.from`: append unless already present. -/
def addUnique (s : List String) (x : String) : List String :=
  if x ∈ s then s else s ++ [x]

/-- Step 3 of the code: `chartRangeIds`, the distinct range ids referenced by
the chart, in first-insertion order (`Array.from` of the `Set`). -/
def chartRangeIds (c : StoredChart) : List String :=
  (c.buttons.flatMap buttonRefs).foldl addUnique []

/-- A parsed usage-table value, abstracted by its JS `Number(·)` coercion:
`coercesTo n` for any stored value whose coercion is the finite number `n`
(usage counts modelled as integers), `nanVal` for any value whose coercion
is NaN (e.g. a non-numeric string or an object). -/
inductive JsVal where
  | coercesTo (n : Int)
  | nanVal
deriving DecidableEq

/-- The parsed `training-statistics` object: string keys to JSON values. -/
abbrev StatsData := List (String × JsVal)

/-- Property lookup `allStats[rangeId]`; `none` plays `undefined`. -/
def statsGet (st : StatsData) (k : String) : Option JsVal :=
  (List.find? (fun p => p.1 = k) st).map (·.2)

/-- Line 85: `Number(allStats[rangeId]) || 0`.  `Number(undefined)` is NaN;
`NaN || 0` and `0 || 0` are 0; every other number (negative included) is
truthy and kept. -/
def jsCount (st : StatsData) (k : String) : Int :=
  match statsGet st k with
  | some (.coercesTo n) => if n = 0 then 0 else n
  | some .nanVal => 0
  | none => 0

/-- One resolved statistics row (`ProcessedStat`). -/
structure ProcessedStat where
  id : String
  folderName : String
  rangeName : String
  count : Int
deriving DecidableEq

/-- Lines 85–92: resolve one collected id to a `ProcessedStat`, with the
orphan placeholders when the catalog lookup misses. -/
def mkStat (cat : List Folder) (st : StatsData) (rangeId : String) : ProcessedStat :=
  let count := jsCount st rangeId
  match rangeDetailsMap cat rangeId with
  | some (fn, rn) =>
      { id := rangeId, folderName := fn, rangeName := rn, count := count }
  | none =>
      { id := rangeId, folderName := "Удаленная папка", rangeName := "(Ренж не найден)",
        count := count }

/-- Step 4 of the code: `processedStats = Array.from(chartRangeIds).map(…)`. -/
def processedStats (c : StoredChart) (cat : List Folder) (st : StatsData) :
    List ProcessedStat :=
  (chartRangeIds c).map (mkStat cat st)

/-- The comparator `(a, b) => b.count - a.count` as the "may come first"
relation of a stable sort: `a` may precede `b` iff `b.count ≤ a.count`. -/
def countGe (a b : ProcessedStat) : Prop := b.count ≤ a.count

instance : DecidableRel countGe := fun a b => inferInstanceAs (Decidable (b.count ≤ a.count))

instance : IsTotal ProcessedStat countGe := ⟨fun a b => le_total b.count a.count⟩

instance : IsTrans ProcessedStat countGe := ⟨fun _ _ _ h₁ h₂ => le_trans h₂ h₁⟩

/-- Line 97: the stable descending-by-count sort. -/
def sortedStats (c : StoredChart) (cat : List Folder) (st : StatsData) :
    List ProcessedStat :=
  List.insertionSort countGe (processedStats c cat st)

/-- Lines 96–98: `topStats = processedStats.sort(…).slice(0, 10)`. -/
def topStats (c : StoredChart) (cat : List Folder) (st : StatsData) :
    List ProcessedStat :=
  (sortedStats c cat st).take 10

/-- Spec-side definition (§3 catalog invariant, "last-seen-wins"): scan the
catalog entries `(range id, (folder name, range name))` in catalog order and
keep the details of the last occurrence of `id`. -/
def catalogEntries (folders : List Folder) : List (String × RangeDetails) :=
  folders.flatMap fun f => f.ranges.map fun r => (r.id, (f.name, r.name))

/-- Spec-side definition: the details of the last occurrence of `id` in
catalog scan order, `none` if `id` never occurs. -/
def lastSeenDetails (folders : List Folder) (id : String) : Option RangeDetails :=
  (catalogEntries folders).foldl (fun acc e => if e.1 = id then some e.2 else acc) none

/-! ## Helper lemmas -/

theorem mem_addUnique {s : List String} {x y : String} :
    y ∈ addUnique s x ↔ y ∈ s ∨ y = x := by
  by_cases h : x ∈ s
  · simp only [addUnique, if_pos h]
    constructor
    · exact Or.inl
    · rintro (hy | rfl)
      · exact hy
      · exact h
  · simp [addUnique, if_neg h]

theorem nodup_addUnique {s : List String} (x : String) (hs : s.Nodup) :
    (addUnique s x).Nodup := by
  by_cases h : x ∈ s
  · simpa [addUnique, if_pos h] using hs
  · simp only [addUnique, if_neg h, List.nodup_append]
    exact ⟨hs, List.nodup_singleton x, by simpa [List.disjoint_singleton] using h⟩

theorem nodup_foldl_addUnique : ∀ (xs acc : List String), acc.Nodup →
    (xs.foldl addUnique acc).Nodup
  | [], _, h => h
  | x :: xs, acc, h => by
    rw [List.foldl_cons]
    exact nodup_foldl_addUnique xs _ (nodup_addUnique x h)

theorem mem_foldl_addUnique (y : String) : ∀ (xs acc : List String),
    y ∈ xs.foldl addUnique acc ↔ y ∈ acc ∨ y ∈ xs
  | [], acc => by simp
  | x :: xs, acc => by
    rw [List.foldl_cons, mem_foldl_addUnique y xs (addUnique acc x)]
    rw [mem_addUnique]
    simp only [List.mem_cons]
    tauto

theorem chartRangeIds_nodup (c : StoredChart) : (chartRangeIds c).Nodup :=
  nodup_foldl_addUnique _ [] List.nodup_nil

theorem mem_chartRangeIds {c : StoredChart} {y : String} :
    y ∈ chartRangeIds c ↔ y ∈ c.buttons.flatMap buttonRefs := by
  rw [chartRangeIds, mem_foldl_addUnique]
  simp

theorem linkedItemRefs_ne_empty {b : ChartButton} {s : String}
    (h : s ∈ linkedItemRefs b) : s ≠ "" := by
  unfold linkedItemRefs at h
  split at h
  · split at h
    · rename_i hcond
      rw [List.mem_singleton] at h
      exact h ▸ hcond.2.1
    · exact absurd h (List.not_mem_nil s)
  · exact absurd h (List.not_mem_nil s)

theorem linkButtonRefs_ne_empty {lb : LinkButton} {s : String}
    (h : s ∈ linkButtonRefs lb) : s ≠ "" := by
  unfold linkButtonRefs at h
  split at h
  · split at h
    · rename_i hcond
      rw [List.mem_singleton] at h
      exact h ▸ hcond.2
    · exact absurd h (List.not_mem_nil s)
  · exact absurd h (List.not_mem_nil s)

theorem buttonRefs_ne_empty {b : ChartButton} {s : String}
    (h : s ∈ buttonRefs b) : s ≠ "" := by
  rw [buttonRefs, List.mem_append] at h
  cases h with
  | inl h => exact linkedItemRefs_ne_empty h
  | inr h =>
    unfold buttonLinkRefs at h
    split at h
    · obtain ⟨lb, _, hs⟩ := List.mem_flatMap.mp h
      exact linkButtonRefs_ne_empty hs
    · exact absurd h (List.not_mem_nil s)

theorem mkStat_id (cat : List Folder) (st : StatsData) (r : String) :
    (mkStat cat st r).id = r := by
  simp only [mkStat]
  split <;> rfl

theorem mkStat_count (cat : List Folder) (st : StatsData) (r : String) :
    (mkStat cat st r).count = jsCount st r := by
  simp only [mkStat]
  split <;> rfl

theorem processedStats_map_id (c : StoredChart) (cat : List Folder) (st : StatsData) :
    (processedStats c cat st).map (fun e => e.id) = chartRangeIds c := by
  rw [processedStats, List.map_map]
  have hcomp : ((fun e : ProcessedStat => e.id) ∘ mkStat cat st) = fun r => r :=
    funext fun r => mkStat_id cat st r
  rw [hcomp]
  exact List.map_id _

theorem foldl_lastStep_acc (id : String) :
    ∀ (es : List (String × RangeDetails)) (acc : Option RangeDetails),
      es.foldl (fun acc e => if e.1 = id then some e.2 else acc) acc =
        Option.or (es.foldl (fun acc e => if e.1 = id then some e.2 else acc) none) acc
  | [], acc => rfl
  | e :: es, acc => by
    rw [List.foldl_cons, List.foldl_cons]
    rw [foldl_lastStep_acc id es (if e.1 = id then some e.2 else acc)]
    rw [foldl_lastStep_acc id es (if e.1 = id then some e.2 else none)]
    cases h : es.foldl (fun acc e => if e.1 = id then some e.2 else acc) none with
    | some v => rfl
    | none =>
      by_cases he : e.1 = id <;> simp [he, Option.or]

theorem detailsGet_foldl (id : String) :
    ∀ (es : List (String × RangeDetails)) (m : String → Option RangeDetails),
      (es.foldl (fun m e => detailsSet m e.1 e.2) m) id =
        Option.or (es.foldl (fun acc e => if e.1 = id then some e.2 else acc) none) (m id)
  | [], m => rfl
  | e :: es, m => by
    rw [List.foldl_cons, List.foldl_cons]
    rw [detailsGet_foldl id es (detailsSet m e.1 e.2)]
    rw [foldl_lastStep_acc id es (if e.1 = id then some e.2 else none)]
    cases h : es.foldl (fun acc e => if e.1 = id then some e.2 else acc) none with
    | some v => rfl
    | none =>
      simp only [Option.or, detailsSet]
      by_cases he : e.1 = id
      · simp [he]
      · rw [if_neg he, if_neg (fun h' : id = e.1 => he h'.symm)]

theorem foldl_detailsSet_entries : ∀ (folders : List Folder) (m : String → Option RangeDetails),
    folders.foldl
      (fun m folder =>
        folder.ranges.foldl (fun m range => detailsSet m range.id (folder.name, range.name)) m)
      m =
    (folders.flatMap fun f => f.ranges.map fun r => (r.id, (f.name, r.name))).foldl
      (fun m e => detailsSet m e.1 e.2) m
  | [], _ => rfl
  | f :: fs, m => by
    rw [List.foldl_cons, List.flatMap_cons, List.foldl_append, List.foldl_map]
    exact foldl_detailsSet_entries fs _

theorem rangeDetailsMap_eq_lastSeen (folders : List Folder) (id : String) :
    rangeDetailsMap folders id = lastSeenDetails folders id := by
  rw [rangeDetailsMap, foldl_detailsSet_entries, lastSeenDetails, catalogEntries]
  rw [detailsGet_foldl]
  cases h : ((folders.flatMap fun f => f.ranges.map fun r => (r.id, (f.name, r.name))).foldl
      (fun acc e => if e.1 = id then some e.2 else acc) none) with
  | some v => rfl
  | none => rfl

/-! ## Claims -/

/-- Claim C1: for every input (chart, catalog, usage table), the produced
`topStats` sequence is sorted in descending order of `count`: every adjacent
pair `(i, i+1)` satisfies `count[i] ≥ count[i+1]`. -/
theorem topStats_sorted_desc (c : StoredChart) (cat : List Folder) (st : StatsData) :
    List.Chain' (fun a b : ProcessedStat => a.count ≥ b.count) (topStats c cat st) := by
  have hsorted : List.Sorted countGe (sortedStats c cat st) :=
    List.sorted_insertionSort countGe (processedStats c cat st)
  have htake : List.Sublist (topStats c cat st) (sortedStats c cat st) :=
    List.take_sublist 10 _
  have hpair : List.Pairwise countGe (topStats c cat st) :=
    List.Pairwise.sublist htake hsorted
  exact hpair.chain'

/-- Claim C2: the length of the output equals `min 10` (number of distinct
collected range identifiers); `chartRangeIds` has no duplicates, so its
length is that distinct count. -/
theorem topStats_length_min_ten (c : StoredChart) (cat : List Folder) (st : StatsData) :
    (topStats c cat st).length = min 10 (chartRangeIds c).length ∧
    (chartRangeIds c).Nodup := by
  constructor
  · rw [topStats, List.length_take, sortedStats, List.length_insertionSort,
      processedStats, List.length_map]
  · exact chartRangeIds_nodup c

/-- Claim C3: the resolved (pre-truncation) output has exactly one entry per
distinct collected identifier — its `id` fields enumerate `chartRangeIds`
exactly — and those ids are pairwise distinct, both before and after
sorting. -/
theorem processedStats_one_per_distinct_id (c : StoredChart) (cat : List Folder)
    (st : StatsData) :
    (processedStats c cat st).map (fun e => e.id) = chartRangeIds c ∧
    ((processedStats c cat st).map (fun e => e.id)).Nodup ∧
    ((sortedStats c cat st).map (fun e => e.id)).Nodup := by
  refine ⟨processedStats_map_id c cat st, ?_, ?_⟩
  · rw [processedStats_map_id]
    exact chartRangeIds_nodup c
  · have hperm : List.Perm (sortedStats c cat st) (processedStats c cat st) :=
      List.perm_insertionSort countGe _
    refine ((hperm.map (fun e => e.id)).nodup_iff).mpr ?_
    rw [processedStats_map_id]
    exact chartRangeIds_nodup c

/-- Claim C4: a "normal" button whose `linkedItem` is one of the sentinel
strings `"label-only"` or `"exit"` contributes no reference through its
`linkedItem`; its contribution to the set reduces to its link buttons. -/
theorem sentinel_linkedItem_no_ref (c : StoredChart) (b : ChartButton)
    (_hmem : b ∈ c.buttons)
    (hsent : b.linkedItem = some "label-only" ∨ b.linkedItem = some "exit") :
    linkedItemRefs b = [] ∧ buttonRefs b = buttonLinkRefs b := by
  have hempty : linkedItemRefs b = [] := by
    cases hsent with
    | inl h =>
      unfold linkedItemRefs
      rw [h]
      exact if_neg (fun hc => hc.2.2.1 rfl)
    | inr h =>
      unfold linkedItemRefs
      rw [h]
      exact if_neg (fun hc => hc.2.2.2 rfl)
  exact ⟨hempty, by rw [buttonRefs, hempty, List.nil_append]⟩

/-- Witness for C4 at a concrete chart holding one sentinel button. -/
theorem sentinel_linkedItem_no_ref_witness :
    linkedItemRefs ⟨"normal", some "label-only", none⟩ = [] ∧
    buttonRefs ⟨"normal", some "label-only", none⟩ =
      buttonLinkRefs ⟨"normal", some "label-only", none⟩ :=
  sentinel_linkedItem_no_ref ⟨"w", [⟨"normal", some "label-only", none⟩]⟩
    ⟨"normal", some "label-only", none⟩
    (List.mem_singleton.mpr rfl) (Or.inl rfl)

/-- Claim C5: a disabled link button contributes no reference, whatever its
`targetRangeId`; and a link button contributes (exactly one reference) only
when it is enabled and its `targetRangeId` is present and non-empty. -/
theorem disabled_linkButton_no_ref (lb : LinkButton) :
    (lb.enabled = false → linkButtonRefs lb = []) ∧
    (linkButtonRefs lb ≠ [] →
      lb.enabled = true ∧ ∃ s, lb.targetRangeId = some s ∧ s ≠ "" ∧
        linkButtonRefs lb = [s]) := by
  obtain ⟨en, tri⟩ := lb
  cases tri with
  | none => simp [linkButtonRefs]
  | some s =>
    cases en with
    | false => simp [linkButtonRefs]
    | true =>
      by_cases hs : s = ""
      · subst hs
        simp [linkButtonRefs]
      · constructor
        · intro hdis
          exact absurd hdis (by simp)
        · intro _
          refine ⟨rfl, s, rfl, hs, ?_⟩
          simp [linkButtonRefs, hs]

/-- Witness for C5 at a concrete disabled link button with a non-empty
target. -/
theorem disabled_linkButton_no_ref_witness :
    linkButtonRefs { enabled := false, targetRangeId := some "r1" } = [] :=
  (disabled_linkButton_no_ref { enabled := false, targetRangeId := some "r1" }).1 rfl

/-- Concrete input refuting claim C6 as stated: a chart referencing `"r1"`
whose usage entry is a value coercing to the negative number `-3`. -/
def negChart : StoredChart := ⟨"c", [⟨"normal", some "r1", none⟩]⟩

/-- The usage table holding the malformed (negative) entry for `"r1"`. -/
def negStats : StatsData := [("r1", JsVal.coercesTo (-3))]

/-- Counterexample to claim C6 as stated: `Number(x) || 0` does not clamp
negative numbers, so a (malformed, per the data model) negative usage entry
is passed through — the resolved count is `-3`, neither the claimed
"non-negative number" nor the claimed `0` for malformed entries. -/
theorem count_coercion_counterexample :
    statsGet negStats "r1" = some (JsVal.coercesTo (-3)) ∧
    (processedStats negChart [] negStats).map (fun e => e.count) = [-3] := by
  decide

/-- Claim C6 (amended): every resolved entry's count is `jsCount` of its id;
a missing or NaN-coercing (non-numeric) usage entry yields count 0 and never
an error, and an entry holding a non-negative number yields exactly that
number; a negative stored number, however, is passed through unclamped. -/
theorem count_coercion_amended (c : StoredChart) (cat : List Folder) (st : StatsData)
    (e : ProcessedStat) (id : String) (n : Int) :
    (e ∈ processedStats c cat st → e.count = jsCount st e.id) ∧
    (statsGet st id = none → jsCount st id = 0) ∧
    (statsGet st id = some JsVal.nanVal → jsCount st id = 0) ∧
    (statsGet st id = some (JsVal.coercesTo n) → 0 ≤ n → jsCount st id = n) := by
  refine ⟨?_, ?_, ?_, ?_⟩
  · intro he
    obtain ⟨r, hr, rfl⟩ := List.mem_map.mp he
    rw [mkStat_count, mkStat_id]
  · intro h
    unfold jsCount
    rw [h]
  · intro h
    unfold jsCount
    rw [h]
  · intro h hn
    unfold jsCount
    rw [h]
    by_cases h0 : n = 0
    · simp [h0]
    · simp [h0]

/-- The usage table exercising every case of the amended C6. -/
def mixedStats : StatsData := [("m", JsVal.nanVal), ("k", JsVal.coercesTo 7)]

/-- A chart referencing `"k"`, for the resolved-entry case of amended C6. -/
def kChart : StoredChart := ⟨"c", [⟨"normal", some "k", none⟩]⟩

/-- Witness for the amended C6 at concrete inputs: a present non-negative
entry, a NaN-coercing entry, a missing entry, and a resolved entry. -/
theorem count_coercion_amended_witness :
    jsCount mixedStats "k" = 7 ∧
    jsCount mixedStats "m" = 0 ∧
    jsCount mixedStats "absent" = 0 ∧
    (mkStat [] mixedStats "k").count = jsCount mixedStats (mkStat [] mixedStats "k").id := by
  have h1 := count_coercion_amended kChart [] mixedStats (mkStat [] mixedStats "k") "k" 7
  have h2 := count_coercion_amended kChart [] mixedStats (mkStat [] mixedStats "k") "m" 0
  have h3 := count_coercion_amended kChart [] mixedStats (mkStat [] mixedStats "k") "absent" 0
  refine ⟨h1.2.2.2 (by decide) (by decide), h2.2.2.1 (by decide), h3.2.1 (by decide), ?_⟩
  have h4 := count_coercion_amended kChart [] mixedStats (mkStat [] mixedStats "k") "k" 7
  exact h4.1 (by decide)

theorem foldl_lastStep_absent (id : String) :
    ∀ (es : List (String × RangeDetails)) (acc : Option RangeDetails),
      (∀ e ∈ es, e.1 ≠ id) →
      es.foldl (fun acc e => if e.1 = id then some e.2 else acc) acc = acc
  | [], _, _ => rfl
  | e :: es, acc, h => by
    rw [List.foldl_cons, if_neg (h e (List.mem_cons_self e es))]
    exact foldl_lastStep_absent id es acc fun e' he' => h e' (List.mem_cons_of_mem e he')

theorem rangeDetailsMap_eq_none_of_absent (cat : List Folder) (id : String)
    (h : ∀ f ∈ cat, ∀ r ∈ f.ranges, r.id ≠ id) :
    rangeDetailsMap cat id = none := by
  rw [rangeDetailsMap_eq_lastSeen, lastSeenDetails]
  apply foldl_lastStep_absent
  intro e he
  rw [catalogEntries] at he
  obtain ⟨f, hf, he'⟩ := List.mem_flatMap.mp he
  obtain ⟨r, hr, rfl⟩ := List.mem_map.mp he'
  exact h f hf r hr

/-- Claim C7: a collected identifier absent from every folder of the catalog
(an orphan reference) still yields a resolved entry, carrying the fixed
placeholder folder and range names and the usage-table count; it is not
omitted, and resolution is total (no error). -/
theorem orphan_resolved_with_placeholders (c : StoredChart) (cat : List Folder)
    (st : StatsData) (id : String)
    (hmem : id ∈ chartRangeIds c)
    (horph : ∀ f ∈ cat, ∀ r ∈ f.ranges, r.id ≠ id) :
    ∃ e, e ∈ processedStats c cat st ∧ e.id = id ∧
      e.folderName = "Удаленная папка" ∧ e.rangeName = "(Ренж не найден)" ∧
      e.count = jsCount st id := by
  have hnone := rangeDetailsMap_eq_none_of_absent cat id horph
  refine ⟨mkStat cat st id, List.mem_map_of_mem _ hmem, mkStat_id cat st id, ?_, ?_,
    mkStat_count cat st id⟩ <;>
    simp only [mkStat, hnone]

/-- The spec's orphan scenario: the chart references `"r3"`, absent from the
catalog, while the usage table records 2 accesses for it. -/
def orphChart : StoredChart := ⟨"c", [⟨"normal", some "r3", none⟩]⟩

/-- A catalog that does not contain `"r3"`. -/
def orphCat : List Folder := [⟨"f", "F", [⟨"q", "Q"⟩]⟩]

/-- The usage table of the orphan scenario. -/
def orphStats : StatsData := [("r3", JsVal.coercesTo 2)]

/-- Witness for C7 at the spec's orphan scenario. -/
theorem orphan_resolved_with_placeholders_witness :
    ∃ e, e ∈ processedStats orphChart orphCat orphStats ∧ e.id = "r3" ∧
      e.folderName = "Удаленная папка" ∧ e.rangeName = "(Ренж не найден)" ∧
      e.count = jsCount orphStats "r3" :=
  orphan_resolved_with_placeholders orphChart orphCat orphStats "r3"
    (by decide) (by decide)

/-- Claim C8: when the same range identifier occurs several times in the
catalog, resolution uses the folder and range names of its last occurrence
in catalog scan order (`lastSeenDetails` is exactly that spec-side reading),
and raises no error — `mkStat` is total. -/
theorem catalog_duplicate_last_seen_wins (cat : List Folder) (st : StatsData)
    (id fn rn : String) (h : lastSeenDetails cat id = some (fn, rn)) :
    (mkStat cat st id).folderName = fn ∧ (mkStat cat st id).rangeName = rn := by
  have hmap : rangeDetailsMap cat id = some (fn, rn) :=
    (rangeDetailsMap_eq_lastSeen cat id).trans h
  constructor <;> simp only [mkStat, hmap]

/-- A catalog in which `"r1"` occurs in two folders. -/
def dupCat : List Folder := [⟨"f1", "F1", [⟨"r1", "A"⟩]⟩, ⟨"f2", "F2", [⟨"r1", "B"⟩]⟩]

/-- Witness for C8 at a concrete duplicated catalog: the second (last)
occurrence `F2/B` wins. -/
theorem catalog_duplicate_last_seen_wins_witness :
    (mkStat dupCat [] "r1").folderName = "F2" ∧ (mkStat dupCat [] "r1").rangeName = "B" :=
  catalog_duplicate_last_seen_wins dupCat [] "r1" "F2" "B" (by decide)

/-- Concrete input refuting claim C9 as stated: one button carrying eleven
enabled link buttons, ten of whose targets have positive counts while
`"z"` has none (count 0). -/
def elevenChart : StoredChart :=
  ⟨"c", [⟨"normal", none,
    some [⟨true, some "a"⟩, ⟨true, some "b"⟩, ⟨true, some "c"⟩, ⟨true, some "d"⟩,
      ⟨true, some "e"⟩, ⟨true, some "f"⟩, ⟨true, some "g"⟩, ⟨true, some "h"⟩,
      ⟨true, some "i"⟩, ⟨true, some "j"⟩, ⟨true, some "z"⟩]⟩]⟩

/-- Usage counts 11 … 2 for `"a"` … `"j"`; `"z"` is absent, so it resolves
to count 0. -/
def elevenStats : StatsData :=
  [("a", JsVal.coercesTo 11), ("b", JsVal.coercesTo 10), ("c", JsVal.coercesTo 9),
   ("d", JsVal.coercesTo 8), ("e", JsVal.coercesTo 7), ("f", JsVal.coercesTo 6),
   ("g", JsVal.coercesTo 5), ("h", JsVal.coercesTo 4), ("i", JsVal.coercesTo 3),
   ("j", JsVal.coercesTo 2)]

/-- Counterexample to claim C9 as stated: `"z"` is a distinct collected
identifier with resolved count 0, yet it occupies no slot of the truncated
top-10 output — ten entries with higher counts fill the slice.  (The zero
count is not the reason: truncation is purely positional.) -/
theorem zero_count_truncated_counterexample :
    "z" ∈ chartRangeIds elevenChart ∧
    jsCount elevenStats "z" = 0 ∧
    (∀ e ∈ topStats elevenChart [] elevenStats, e.id ≠ "z") := by
  decide

/-- Claim C9 (amended): the core never drops a zero-count entry by
filtering — every collected identifier, count 0 included, occupies a slot of
the pre-truncation sorted sequence, and whenever the chart references at
most 10 distinct identifiers it also occupies a slot of the truncated
top-10 output; entries leave the top 10 only by positional truncation. -/
theorem zero_count_kept_amended (c : StoredChart) (cat : List Folder) (st : StatsData)
    (id : String) (hmem : id ∈ chartRangeIds c) :
    (∃ e, e ∈ sortedStats c cat st ∧ e.id = id ∧ e.count = jsCount st id) ∧
    ((chartRangeIds c).length ≤ 10 →
      ∃ e, e ∈ topStats c cat st ∧ e.id = id ∧ e.count = jsCount st id) := by
  have h1 : mkStat cat st id ∈ processedStats c cat st := List.mem_map_of_mem _ hmem
  have h2 : mkStat cat st id ∈ sortedStats c cat st := by
    rw [sortedStats, List.mem_insertionSort]
    exact h1
  refine ⟨⟨mkStat cat st id, h2, mkStat_id cat st id, mkStat_count cat st id⟩, ?_⟩
  intro hlen
  have hlen' : (sortedStats c cat st).length ≤ 10 := by
    rw [sortedStats, List.length_insertionSort, processedStats, List.length_map]
    exact hlen
  rw [topStats, List.take_of_length_le hlen']
  exact ⟨mkStat cat st id, h2, mkStat_id cat st id, mkStat_count cat st id⟩

/-- A chart referencing `"p"` (count 5) and `"z"` (count 0). -/
def smallChart : StoredChart := ⟨"c", [⟨"normal", some "p", some [⟨true, some "z"⟩]⟩]⟩

/-- The usage table of the two-identifier scenario; `"z"` is absent. -/
def smallStats : StatsData := [("p", JsVal.coercesTo 5)]

/-- Witness for the amended C9: with only two collected identifiers, the
zero-count `"z"` occupies a slot of the truncated top-10 output. -/
theorem zero_count_kept_amended_witness :
    ∃ e, e ∈ topStats smallChart [] smallStats ∧ e.id = "z" ∧
      e.count = jsCount smallStats "z" :=
  (zero_count_kept_amended smallChart [] smallStats "z" (by decide)).2 (by decide)

/-- Claim C10: the empty string is "no reference" at both collection
sources — an empty `linkedItem` and an empty `targetRangeId` contribute
nothing — and consequently the empty-string identifier is never collected
and never appears in the resolved output. -/
theorem empty_string_never_collected (b : ChartButton) (lb : LinkButton)
    (c : StoredChart) (cat : List Folder) (st : StatsData) :
    (b.linkedItem = some "" → linkedItemRefs b = []) ∧
    (lb.targetRangeId = some "" → linkButtonRefs lb = []) ∧
    "" ∉ chartRangeIds c ∧
    (∀ e ∈ processedStats c cat st, e.id ≠ "") := by
  have h3 : "" ∉ chartRangeIds c := by
    intro h
    obtain ⟨b', _, hs⟩ := List.mem_flatMap.mp (mem_chartRangeIds.mp h)
    exact buttonRefs_ne_empty hs rfl
  refine ⟨?_, ?_, h3, ?_⟩
  · intro h
    unfold linkedItemRefs
    rw [h]
    exact if_neg (fun hc => hc.2.1 rfl)
  · intro h
    unfold linkButtonRefs
    rw [h]
    exact if_neg (fun hc => hc.2 rfl)
  · intro e he
    obtain ⟨r, hr, rfl⟩ := List.mem_map.mp he
    rw [mkStat_id]
    exact fun hr0 => h3 (hr0 ▸ hr)

/-- Witness for C10 at concrete empty-string references. -/
theorem empty_string_never_collected_witness :
    linkedItemRefs ⟨"normal", some "", none⟩ = [] ∧
    linkButtonRefs ⟨true, some ""⟩ = [] := by
  have h := empty_string_never_collected ⟨"normal", some "", none⟩ ⟨true, some ""⟩
    ⟨"w", [⟨"normal", some "", some [⟨true, some ""⟩]⟩]⟩ [] []
  exact ⟨h.1 rfl, h.2.1 rfl⟩
